import Mathlib

/-!
Shallow embedding of the fab-api-client repository (Python) in Lean 4,
covering the response normalizer (asset-formats, download-info, library-search
pages, manifests), the pagination walker, the per-asset discovery pipeline and
the batch orchestrator of `src/src/fab_api_client/client/sync.py` and
`client/async_.py`, together with the domain models in
`models/domain/manifest.py`, `models/domain/library.py` and the API models in
`fab_api_client/models/api/asset_formats.py`, `library_search.py`,
`download_info.py`.

Python values (decoded JSON) are modelled by the inductive `PyVal`; Python
exceptions are modelled by `Except String` (carrying `str(e)`); network I/O is
modelled by an environment value (`HttpOutcome`) describing each request
outcome; the wall clock, the file system writes and the external helpers of
the `asset_marketplace_core` package (`validate_url`, `sanitize_filename`) are
passed in as explicit parameters, since they are external collaborators of the
repository.
-/

namespace Fab

/-- Model of a Python value as produced by `json.loads` (plus `None`). A dict
is an association list with the first binding of a key the visible one. -/
inductive PyVal where
  | none
  | bool (b : Bool)
  | int (n : Int)
  | str (s : String)
  | list (xs : List PyVal)
  | dict (kvs : List (String × PyVal))
deriving Repr

/-- Lookup of a key in a Python dict (`key in d` / `d[key]`): first binding wins. -/
def pyLookup : List (String × PyVal) → String → Option PyVal
  | [], _ => Option.none
  | (k, v) :: rest, key => if k = key then some v else pyLookup rest key

/-- Python `d.get(key, default)`. -/
def pyGetD (kvs : List (String × PyVal)) (key : String) (default : PyVal) : PyVal :=
  (pyLookup kvs key).getD default

/-- Python truthiness of a value (`bool(v)`). -/
def PyVal.truthy : PyVal → Bool
  | .none => false
  | .bool b => b
  | .int n => n != 0
  | .str s => !s.isEmpty
  | .list xs => !xs.isEmpty
  | .dict kvs => !kvs.isEmpty

/-- Python iteration `for x in v`: a list yields its elements, a string its
characters (as one-character strings), a dict its keys; any other value
raises `TypeError`. -/
def iterElems : PyVal → Except String (List PyVal)
  | .list xs => .ok xs
  | .str s => .ok (s.data.map fun c => PyVal.str (String.mk [c]))
  | .dict kvs => .ok (kvs.map fun kv => PyVal.str kv.1)
  | _ => .error "TypeError: object is not iterable"

/-- Schematic rendering of `str(v)` used when a Python f-string interpolates a
value into an error message. It is exact for strings, numbers, booleans and
None; containers are rendered schematically (no theorem pins their text). -/
def PyVal.pyStr : PyVal → String
  | .none => "None"
  | .bool b => if b then "True" else "False"
  | .int n => toString n
  | .str s => s
  | .list _ => "[...]"
  | .dict _ => "\x7b...\x7d"

/-- Embedding of `AssetFormatsResponse`
(`src/fab_api_client/models/api/asset_formats.py`). The `formats` field holds
the raw Python value assigned by `from_api_response` (the dataclass is not
runtime-checked, so the assigned value need not actually be a list). -/
structure AssetFormatsResponse where
  formats : PyVal
deriving Repr

/-- Embedding of `AssetFormatsResponse.from_api_response`: a bare list is kept
as the formats list; a dict is unwrapped at key `assetFormats` when present and
otherwise treated as a single format (a one-element list holding the dict);
anything else yields an empty list. Total, mirroring that the Python function
never raises. -/
def AssetFormatsResponse.from_api_response (data : PyVal) : AssetFormatsResponse :=
  match data with
  | .list xs => ⟨.list xs⟩
  | .dict kvs =>
      match pyLookup kvs "assetFormats" with
      | some v => ⟨v⟩
      | Option.none => ⟨.list [.dict kvs]⟩
  | _ => ⟨.list []⟩

/-- Test of one format entry performed by `find_unreal_file_uid`:
`isinstance(format_obj, dict)`, then `format_obj.get("assetFormatType", {})`
is a dict whose `code` equals the string `"unreal-engine"`. -/
def isUnrealEntry (fo : PyVal) : Bool :=
  match fo with
  | .dict kvs =>
      match pyGetD kvs "assetFormatType" (.dict []) with
      | .dict ft =>
          match pyGetD ft "code" .none with
          | .str s => s = "unreal-engine"
          | _ => false
      | _ => false
  | _ => false

/-- Inner file scan of `find_unreal_file_uid`: the first element that is a
dict containing key `uid` yields its `uid` value. -/
def firstFileUid : List PyVal → Option PyVal
  | [] => Option.none
  | f :: rest =>
      match f with
      | .dict e =>
          match pyLookup e "uid" with
          | some u => some u
          | Option.none => firstFileUid rest
      | _ => firstFileUid rest

/-- Outer entry scan of `find_unreal_file_uid`: entries are visited in array
order; for an entry passing `isUnrealEntry` whose `files` value is a truthy
list, the first uid found under it is returned; otherwise the scan continues
with the remaining entries. -/
def scanFormats : List PyVal → Option PyVal
  | [] => Option.none
  | fo :: rest =>
      if isUnrealEntry fo then
        match fo with
        | .dict kvs =>
            match pyGetD kvs "files" (.list []) with
            | .list fs =>
                if fs.isEmpty then scanFormats rest
                else
                  match firstFileUid fs with
                  | some u => some u
                  | Option.none => scanFormats rest
            | _ => scanFormats rest
        | _ => scanFormats rest
      else scanFormats rest

/-- Embedding of `AssetFormatsResponse.find_unreal_file_uid`. The `for` loop
over `self.formats` raises `TypeError` when `formats` is not iterable (which
can happen when `from_api_response` unwrapped a non-list `assetFormats`
value); otherwise the scan is total. -/
def AssetFormatsResponse.find_unreal_file_uid (r : AssetFormatsResponse) :
    Except String (Option PyVal) :=
  match iterElems r.formats with
  | .error e => .error e
  | .ok fos => .ok (scanFormats fos)

/-- Embedding of `DownloadInfoResponse`
(`src/src/fab_api_client/models/api/download_info.py`). -/
structure DownloadInfoResponse where
  download_info : PyVal
deriving Repr

/-- Embedding of `DownloadInfoResponse.from_dict`: reads key `downloadInfo`
with default `[]`; calling `.get` on a non-dict raises `AttributeError`. -/
def DownloadInfoResponse.from_dict (data : PyVal) : Except String DownloadInfoResponse :=
  match data with
  | .dict kvs => .ok ⟨pyGetD kvs "downloadInfo" (.list [])⟩
  | _ => .error "AttributeError: object has no attribute get"

/-- Entry scan of `find_manifest_url`: the first dict entry with
`type == "manifest"` yields its `downloadUrl` value (possibly `None`). -/
def scanManifestUrl : List PyVal → PyVal
  | [] => PyVal.none
  | info :: rest =>
      match info with
      | .dict e =>
          match pyGetD e "type" .none with
          | .str s => if s = "manifest" then pyGetD e "downloadUrl" .none else scanManifestUrl rest
          | _ => scanManifestUrl rest
      | _ => scanManifestUrl rest

/-- Embedding of `DownloadInfoResponse.find_manifest_url`. -/
def DownloadInfoResponse.find_manifest_url (r : DownloadInfoResponse) :
    Except String PyVal :=
  match iterElems r.download_info with
  | .error e => .error e
  | .ok infos => .ok (scanManifestUrl infos)

/-! ## Domain models: Asset, Library, ManifestDownloadResult, ParsedManifest -/

/-- Embedding of the `Asset` dataclass
(`src/src/fab_api_client/models/domain/asset.py`), restricted to the fields the
client logic reads (`uid`, `title` inherited from the external `BaseAsset`,
and the Fab-specific `status`); the remaining fields are data carried along
unchanged and are not consulted by any operation under verification. -/
structure Asset where
  uid : String
  title : String
  status : String
deriving Repr, DecidableEq

/-- Embedding of the `Library` dataclass
(`src/src/fab_api_client/models/domain/library.py`): an ordered asset list
plus a stored `total_count`. -/
structure Library where
  assets : List Asset
  total_count : Nat
deriving Repr, DecidableEq

/-- Embedding of `Library.filter`: keeps the assets satisfying the predicate
and constructs the new Library with `total_count=len(filtered)`. -/
def Library.filter (lib : Library) (predicate : Asset → Bool) : Library :=
  let filtered := lib.assets.filter predicate
  { assets := filtered, total_count := filtered.length }

/-- Embedding of `Library.filter_by_status`: keeps the assets whose `status`
equals the given one, with `total_count=len(filtered)`. -/
def Library.filter_by_status (lib : Library) (status : String) : Library :=
  let filtered := lib.assets.filter (fun a => a.status = status)
  { assets := filtered, total_count := filtered.length }

/-- Embedding of the `ManifestDownloadResult` dataclass
(`src/src/fab_api_client/models/domain/manifest.py`). Paths are modelled as
strings. -/
structure ManifestDownloadResult where
  success : Bool
  file_path : Option String := Option.none
  size : Option Nat := Option.none
  error : Option String := Option.none
deriving Repr, DecidableEq

/-- Embedding of the `ManifestFile` dataclass. Field values are the raw
Python values read by `ParsedManifest.from_dict` (the dataclass is not
runtime-checked). -/
structure ManifestFile where
  filename : PyVal
  file_hash : PyVal
  file_chunk_parts : PyVal
deriving Repr

/-- Embedding of the `ParsedManifest` dataclass. -/
structure ParsedManifest where
  version : PyVal
  app_id : PyVal
  app_name : PyVal
  build_version : PyVal
  files : List ManifestFile
  raw_data : List (String × PyVal)
deriving Repr

/-- Per-entry body of the loop in `ParsedManifest.from_dict`: calling `.get`
on a non-dict entry raises `AttributeError`; on a dict entry the three fields
are read with their defaults. -/
def manifestFileOfEntry (v : PyVal) : Except String ManifestFile :=
  match v with
  | .dict e =>
      .ok { filename := pyGetD e "Filename" (.str "")
            file_hash := pyGetD e "FileHash" (.str "")
            file_chunk_parts := pyGetD e "FileChunkParts" (.list []) }
  | _ => .error "AttributeError: object has no attribute get"

/-- Embedding of `ParsedManifest.from_dict`: iterates over
`data.get("FileManifestList", [])` (raising `TypeError` when that value is not
iterable), builds a `ManifestFile` per entry, reads the four header fields
with default `""`, and retains the whole input dict as `raw_data`. -/
def ParsedManifest.from_dict (kvs : List (String × PyVal)) : Except String ParsedManifest := do
  let elems ← iterElems (pyGetD kvs "FileManifestList" (.list []))
  let files ← elems.mapM manifestFileOfEntry
  return { version := pyGetD kvs "ManifestFileVersion" (.str "")
           app_id := pyGetD kvs "AppID" (.str "")
           app_name := pyGetD kvs "AppNameString" (.str "")
           build_version := pyGetD kvs "BuildVersionString" (.str "")
           files := files
           raw_data := kvs }

/-- Embedding of `ManifestDownloadResult.load`. The file system is modelled by
`disk`, mapping a path to the decoded JSON value of the file when the file
exists and holds UTF-8 JSON text (reading and `json.loads` are collapsed into
the stored value); `Option.none` models a missing file. A `ValueError` is
raised when the result is not successful, has no path, or the file is gone;
otherwise the content is parsed by `ParsedManifest.from_dict` (a non-dict
JSON document makes `.get` raise `AttributeError`). The three steps of the
function body are split into `loadParse` (the final `ParsedManifest.from_dict`
call on the decoded content), `loadRead` (the existence check plus read), and
`load` (the success and path guards). -/
def ManifestDownloadResult.loadParse (v : PyVal) : Except String ParsedManifest :=
  match v with
  | .dict kvs => ParsedManifest.from_dict kvs
  | _ => .error "AttributeError: object has no attribute get"

def ManifestDownloadResult.loadRead (disk : String → Option PyVal) (p : String) :
    Except String ParsedManifest :=
  match disk p with
  | Option.none => .error ("Manifest file not found: " ++ p)
  | some v => ManifestDownloadResult.loadParse v

def ManifestDownloadResult.load (disk : String → Option PyVal)
    (r : ManifestDownloadResult) : Except String ParsedManifest :=
  match r.file_path with
  | Option.none => .error "Cannot load manifest: download was not successful"
  | some p =>
      if !r.success then .error "Cannot load manifest: download was not successful"
      else ManifestDownloadResult.loadRead disk p

/-! ## Discovery pipeline (per asset) -/

/-- Outcome of one HTTP request in the environment: an HTTP response with a
status code and body, or a timeout, or a connection failure (each failure
carrying the text of the underlying transport exception). -/
inductive HttpOutcome (α : Type) where
  | status (code : Nat) (body : α)
  | timeout (msg : String)
  | connError (msg : String)
deriving Repr

/-- Exceptions of the client taxonomy (`src/src/fab_api_client/exceptions.py`)
plus a constructor for raw Python exceptions escaping the typed handlers. -/
inductive FabError where
  | auth (msg : String)
  | notFound (msg : String)
  | api (msg : String) (code : Nat)
  | network (msg : String)
  | pyError (msg : String)
deriving Repr, DecidableEq

/-- Rendering `str(e)` of an exception: every constructor of the taxonomy
stores its message (`FabAPIError.__init__` forwards `message` to
`super().__init__`). -/
def FabError.msg : FabError → String
  | .auth m => m
  | .notFound m => m
  | .api m _ => m
  | .network m => m
  | .pyError m => m

/-- Shared status-code handling of `_discover_file_uid` and
`_get_download_info` (both clients): 401/403 raise `FabAuthenticationError`,
404 returns benign absence, any other 4xx/5xx is raised by
`raise_for_status` and rewrapped as `FabAPIError`; a 2xx passes its body to
the continuation. Timeouts and connection failures raise `FabNetworkError`. -/
def handleDiscoveryRequest (o : HttpOutcome PyVal)
    (onOk : PyVal → Except FabError (Option PyVal)) : Except FabError (Option PyVal) :=
  match o with
  | .timeout m => .error (.network ("Request timeout: " ++ m))
  | .connError m => .error (.network ("Connection error: " ++ m))
  | .status code body =>
      if code = 401 ∨ code = 403 then
        .error (.auth ("Authentication failed (HTTP " ++ toString code ++ ")"))
      else if code = 404 then .ok Option.none
      else if 400 ≤ code ∧ code < 600 then
        .error (.api ("HTTP error " ++ toString code) code)
      else onOk body

/-- Embedding of `FabClient._discover_file_uid` / the identical
`FabAsyncClient._discover_file_uid`: on a 2xx the JSON body is normalized by
`AssetFormatsResponse.from_api_response` and scanned by
`find_unreal_file_uid`; a Python error escaping that scan is not caught by the
typed handlers and propagates raw. -/
def discoverFileUid (o : HttpOutcome PyVal) : Except FabError (Option PyVal) :=
  handleDiscoveryRequest o fun body =>
    match (AssetFormatsResponse.from_api_response body).find_unreal_file_uid with
    | .ok u => .ok u
    | .error e => .error (.pyError e)

/-- Embedding of `FabClient._get_download_info` / the identical async method:
the same status handling as `_discover_file_uid`; on a 2xx the JSON body is
parsed by `DownloadInfoResponse.from_dict` (an `AttributeError` from a
non-dict body escapes the typed handlers and propagates raw). -/
def getDownloadInfo (o : HttpOutcome PyVal) :
    Except FabError (Option DownloadInfoResponse) :=
  match o with
  | .timeout m => .error (.network ("Request timeout: " ++ m))
  | .connError m => .error (.network ("Connection error: " ++ m))
  | .status code body =>
      if code = 401 ∨ code = 403 then
        .error (.auth ("Authentication failed (HTTP " ++ toString code ++ ")"))
      else if code = 404 then .ok Option.none
      else if 400 ≤ code ∧ code < 600 then
        .error (.api ("HTTP error " ++ toString code) code)
      else
        match DownloadInfoResponse.from_dict body with
        | .ok r => .ok (some r)
        | .error e => .error (.pyError e)

/-- Step 3 of `download_manifest`: a direct GET of the manifest URL guarded
only by `raise_for_status` (no typed handlers), returning the raw bytes
(modelled as a string). The exception text of the external HTTP library is
modelled schematically; no theorem pins it. -/
def fetchManifestBytes (o : HttpOutcome String) : Except FabError String :=
  match o with
  | .timeout m => .error (.pyError ("Request timeout: " ++ m))
  | .connError m => .error (.pyError ("Connection error: " ++ m))
  | .status code body =>
      if 400 ≤ code ∧ code < 600 then
        .error (.pyError ("HTTP error " ++ toString code ++ " for manifest url"))
      else .ok body

/-- Environment of one asset run of the discovery pipeline: the outcomes the
network produces for its asset-formats request, its download-info request and
the final manifest GET. -/
structure AssetEnv where
  formats : HttpOutcome PyVal
  downloadInfo : HttpOutcome PyVal
  manifest : HttpOutcome String
deriving Repr

/-- Invocation of an optional progress callback; the callback is modelled as
possibly raising (`.error` carries `str` of the raised exception). -/
def callCb (cb : Option (String → Except String Unit)) (msg : String) :
    Except String Unit :=
  match cb with
  | some f => f msg
  | Option.none => .ok ()

/-- Python truthiness of `file_uid` (an `Optional` value): `None` is falsy,
a value is as truthy as itself. -/
def optTruthy : Option PyVal → Bool
  | Option.none => false
  | some v => v.truthy

/-- Lift of a typed client exception into the generic raised-exception model
(`str(e)`). -/
def liftFab {α : Type} : Except FabError α → Except String α
  | .ok a => .ok a
  | .error e => .error e.msg

/-- Body of the `try` block of `download_manifest`
(`src/src/fab_api_client/client/sync.py` lines 406..467 and the structurally
identical `async_.py` lines 397..457): the 3-stage pipeline with benign
absence returned as a typed failure result and every other error raised.
`validate_url` and `sanitize_filename` of the external
`asset_marketplace_core` package are parameters; `safe_create_directory` and
the file write are assumed to succeed; the inter-stage sleeps have no
observable effect at this level. -/
def downloadManifestTry (validateUrl : PyVal → Bool) (sanitize : String → String)
    (outputDir : String) (env : AssetEnv) (asset : Asset)
    (cb : Option (String → Except String Unit)) :
    Except String ManifestDownloadResult := do
  callCb cb ("Discovering file UID for " ++ asset.title)
  let fileUid ← liftFab (discoverFileUid env.formats)
  if !optTruthy fileUid then
    return { success := false, error := some "No Unreal Engine format found" }
  callCb cb ("Getting download info for " ++ asset.title)
  let dl ← liftFab (getDownloadInfo env.downloadInfo)
  match dl with
  | Option.none =>
      return { success := false, error := some "Download info not found" }
  | some info => do
      let murl ← info.find_manifest_url
      if !murl.truthy then
        return { success := false, error := some "Manifest URL not found in download info" }
      if !validateUrl murl then
        return { success := false, error := some ("Invalid manifest URL: " ++ murl.pyStr) }
      callCb cb ("Downloading manifest for " ++ asset.title)
      let raw ← liftFab (fetchManifestBytes env.manifest)
      let outputPath := outputDir ++ "/" ++ sanitize asset.title ++ "_" ++ asset.uid ++ ".manifest"
      return { success := true, file_path := some outputPath, size := some raw.length }

/-- Embedding of `download_manifest` of both clients: the whole pipeline body
runs under a blanket `except Exception` handler that converts ANY raised
exception into a failure result carrying `str(e)`; consequently the function
itself is total and never raises. -/
def downloadManifest (validateUrl : PyVal → Bool) (sanitize : String → String)
    (outputDir : String) (env : AssetEnv) (asset : Asset)
    (cb : Option (String → Except String Unit)) : ManifestDownloadResult :=
  match downloadManifestTry validateUrl sanitize outputDir env asset cb with
  | .ok r => r
  | .error e => { success := false, error := some e }

/-! ## Batch orchestrator -/

/-- Embedding of the inner `make_progress_callback` of both batch methods: a
per-asset callback binding the batch callback to one asset, or `None` when no
batch callback was supplied. -/
def perAssetCb (cb : Option (Asset → String → Except String Unit)) (a : Asset) :
    Option (String → Except String Unit) :=
  cb.map fun f => f a

/-- Invocation of the optional batch-level callback. -/
def callBatchCb (cb : Option (Asset → String → Except String Unit))
    (a : Asset) (msg : String) : Except String Unit :=
  match cb with
  | some f => f a msg
  | Option.none => .ok ()

/-- Final status message of both batch methods:
`"completed" if result.success else f"failed: \x7bresult.error\x7d"`. -/
def progressMsg (r : ManifestDownloadResult) : String :=
  if r.success then "completed" else "failed: " ++ (r.error.getD "None")

/-- Embedding of the sequential `FabClient.download_manifests`
(`src/src/fab_api_client/client/sync.py` lines 472..514): per asset, the
batch callback is invoked with `"starting"`, then `download_manifest` runs
(itself total), then the callback is invoked with the completion status, and
the result is appended; the batch-level callback invocations are NOT guarded
by any handler, so an exception they raise propagates out of the batch. -/
def syncDownloadManifests (validateUrl : PyVal → Bool) (sanitize : String → String)
    (outputDir : String) (items : List (Asset × AssetEnv))
    (cb : Option (Asset → String → Except String Unit)) :
    Except String (List ManifestDownloadResult) :=
  match items with
  | [] => .ok []
  | (a, env) :: rest => do
      callBatchCb cb a "starting"
      let r := downloadManifest validateUrl sanitize outputDir env a (perAssetCb cb a)
      callBatchCb cb a (progressMsg r)
      let rs ← syncDownloadManifests validateUrl sanitize outputDir rest cb
      return r :: rs

/-- Embedding of `FabAsyncClient._download_manifest_with_progress`: one
concurrent task, running `download_manifest` and then the unguarded
batch-level completion callback. -/
def asyncTaskRun (validateUrl : PyVal → Bool) (sanitize : String → String)
    (outputDir : String) (a : Asset) (env : AssetEnv)
    (cb : Option (Asset → String → Except String Unit)) :
    Except String ManifestDownloadResult := do
  let r := downloadManifest validateUrl sanitize outputDir env a (perAssetCb cb a)
  callBatchCb cb a (progressMsg r)
  return r

/-- Embedding of the concurrent `FabAsyncClient.download_manifests`
(`src/src/fab_api_client/client/async_.py` lines 462..491): the task-creation
loop invokes the unguarded batch callback with `"starting"` for every asset,
then `asyncio.gather(..., return_exceptions=False)` awaits every task and
returns their results IN INPUT ORDER (a documented guarantee of `gather`),
or propagates a task exception; since each task touches only its own asset
environment, task interleaving does not affect the values, and a raised
exception is modelled as the first one in input order. -/
def asyncDownloadManifests (validateUrl : PyVal → Bool) (sanitize : String → String)
    (outputDir : String) (items : List (Asset × AssetEnv))
    (cb : Option (Asset → String → Except String Unit)) :
    Except String (List ManifestDownloadResult) := do
  items.forM fun it => callBatchCb cb it.1 "starting"
  items.mapM fun it => asyncTaskRun validateUrl sanitize outputDir it.1 it.2 cb

/-! ## Pagination walker -/

/-- Embedding of the `CursorInfo` dataclass
(`src/fab_api_client/models/api/cursor.py`). The fields hold the raw values
stored by `LibrarySearchResponse.from_dict` (declared `Optional[str]`, with
`None` as `PyVal.none`). -/
structure CursorInfo where
  next : PyVal := PyVal.none
  previous : PyVal := PyVal.none
deriving Repr

/-- Embedding of the `LibrarySearchResponse` dataclass
(`src/fab_api_client/models/api/library_search.py`): one page of library
results. `results`, `next` and `aggregations` hold the raw values assigned by
`from_dict`. -/
structure LibrarySearchResponse where
  results : PyVal := PyVal.list []
  cursors : Option CursorInfo := Option.none
  next : PyVal := PyVal.none
  aggregations : PyVal := PyVal.none
deriving Repr

/-- Embedding of `LibrarySearchResponse.from_dict`: `cursors` is populated
exactly when `data.get("cursors", \x7b\x7d)` is truthy (a truthy non-dict value
makes `.get` raise `AttributeError`); absence yields `cursors=None`. -/
def LibrarySearchResponse.from_dict (kvs : List (String × PyVal)) :
    Except String LibrarySearchResponse := do
  let cursorData := pyGetD kvs "cursors" (.dict [])
  let cursors ←
    if cursorData.truthy then
      match cursorData with
      | .dict cs =>
          Except.ok (some { next := pyGetD cs "next" PyVal.none
                            previous := pyGetD cs "previous" PyVal.none })
      | _ => Except.error "AttributeError: object has no attribute get"
    else Except.ok Option.none
  return { results := pyGetD kvs "results" (.list [])
           cursors := cursors
           next := pyGetD kvs "next" PyVal.none
           aggregations := pyGetD kvs "aggregations" PyVal.none }

/-- Cursor value a page carries (`page.cursors.next` when `cursors` is
present, else `None`). -/
def LibrarySearchResponse.cursorNext (p : LibrarySearchResponse) : PyVal :=
  match p.cursors with
  | some c => c.next
  | Option.none => PyVal.none

/-- Continuation test of both walkers:
`if page_response.cursors and page_response.cursors.next:` — the cursors
record is present (a dataclass instance is always truthy) and its `next`
value is truthy. -/
def hasNext (p : LibrarySearchResponse) : Bool :=
  match p.cursors with
  | some c => c.next.truthy
  | Option.none => false

/-- Observable events of one pagination walk: a page request carrying the
optional `cursor` query parameter, a page yielded to the caller, and the
rate-limit pause (`time.sleep` / `asyncio.sleep` of `rate_limit_delay`). -/
inductive PageEvent where
  | fetch (cursor : Option PyVal)
  | pageOut (p : LibrarySearchResponse)
  | sleep
deriving Repr

/-- Embedding of the loop of `get_library_pages` (both clients), run against a
server that answers the successive requests with the pages of `server` in
order: each iteration fetches a page, yields it, and iff the page passes
`hasNext` sets `params["cursor"]` to the page's `cursors.next`, pauses, and
loops. When the walker needs a page beyond the supplied list the model records
the attempted fetch and stops; every theorem below concerns chains the walker
exhausts, where that case does not arise. -/
def pagesTrace : List LibrarySearchResponse → Option PyVal → List PageEvent
  | [], c => [.fetch c]
  | p :: rest, c =>
      .fetch c :: .pageOut p ::
        (if hasNext p then .sleep :: pagesTrace rest (some p.cursorNext) else [])

/-- Pages yielded during a walk, in order. -/
def yieldedPages (es : List PageEvent) : List LibrarySearchResponse :=
  es.filterMap fun e =>
    match e with
    | .pageOut p => some p
    | _ => Option.none

/-- Cursor parameters of the page requests issued during a walk, in order. -/
def fetchedCursors (es : List PageEvent) : List (Option PyVal) :=
  es.filterMap fun e =>
    match e with
    | .fetch c => some c
    | _ => Option.none

/-- Number of rate-limit pauses in a walk. -/
def countSleeps (es : List PageEvent) : Nat :=
  (es.filter fun e =>
    match e with
    | .sleep => true
    | _ => false).length

/-- Test that every pause of a trace is immediately followed by a page
request (so a pause happens only on the way to another fetch). -/
def sleepsBeforeFetch : List PageEvent → Bool
  | [] => true
  | .sleep :: rest =>
      match rest with
      | .fetch _ :: _ => sleepsBeforeFetch rest
      | _ => false
  | _ :: rest => sleepsBeforeFetch rest

/-- Embedding of `get_library` (both clients): walks every page, converts each
page to assets in page order (the page conversion `to_assets` of
`LibrarySearchResponse` is abstracted as a parameter — the aggregation does
not inspect it), concatenates, and constructs the Library with
`total_count=len(all_assets)`. -/
def getLibrary (toAssets : LibrarySearchResponse → List Asset)
    (server : List LibrarySearchResponse) : Library :=
  let allAssets := (yieldedPages (pagesTrace server Option.none)).flatMap toAssets
  { assets := allAssets, total_count := allAssets.length }

/-! ## Shared lemmas and concrete test data -/

/-- Test asset A of the end-to-end scenario. -/
def assetAlpha : Asset := { uid := "uidA", title := "Alpha", status := "approved" }

/-- Test asset B of the end-to-end scenario. -/
def assetBeta : Asset := { uid := "uidB", title := "Beta", status := "approved" }

/-- Environment of an asset whose format-discovery request returns HTTP 404. -/
def env404 : AssetEnv :=
  { formats := .status 404 PyVal.none
    downloadInfo := .status 200 (.dict [])
    manifest := .status 200 "" }

/-- Environment of an asset whose format-discovery request returns HTTP 401. -/
def env401 : AssetEnv :=
  { formats := .status 401 (.dict [])
    downloadInfo := .status 200 (.dict [])
    manifest := .status 200 "" }

/-- Environment of an asset whose format-discovery request times out (the
transport exception text is "t"). -/
def envTimeout : AssetEnv :=
  { formats := .timeout "t"
    downloadInfo := .status 200 (.dict [])
    manifest := .status 200 "" }

/-- Environment of an asset whose format-discovery request returns HTTP 500. -/
def env500 : AssetEnv :=
  { formats := .status 500 (.dict [])
    downloadInfo := .status 200 (.dict [])
    manifest := .status 200 "" }

/-- Environment of an asset succeeding through all three stages: formats with
an unreal-engine entry, download info with a manifest URL, and a 13-byte
manifest download. -/
def envOk : AssetEnv :=
  { formats := .status 200 (.list
      [ .dict [("assetFormatType", .dict [("code", .str "unreal-engine")]),
               ("files", .list [.dict [("uid", .str "fileB")]])] ])
    downloadInfo := .status 200 (.dict [("downloadInfo", .list
      [ .dict [("type", .str "manifest"),
               ("downloadUrl", .str "https://cdn.example/manifest.json")] ])])
    manifest := .status 200 "manifestbytes" }

/-- First page of the concrete pagination chain: carries cursor "cur2". -/
def pageOne : LibrarySearchResponse :=
  { results := .list [.dict [("uid", .str "a1")]]
    cursors := some { next := .str "cur2" } }

/-- Second and last page of the concrete pagination chain: no cursor. -/
def pageTwo : LibrarySearchResponse :=
  { results := .list [.dict [("uid", .str "a2")]] }

theorem scanFormats_cons_false (fo : PyVal) (rest : List PyVal)
    (h : isUnrealEntry fo = false) :
    scanFormats (fo :: rest) = scanFormats rest := by
  conv_lhs => unfold scanFormats
  simp [h]

theorem scanFormats_all_false (fos : List PyVal)
    (h : ∀ p ∈ fos, isUnrealEntry p = false) :
    scanFormats fos = Option.none := by
  induction fos with
  | nil => rfl
  | cons fo rest ih =>
      rw [scanFormats_cons_false fo rest (h fo (by simp))]
      exact ih fun p hp => h p (by simp [hp])

theorem scanFormats_hit (es fs : List (String × PyVal)) (fRest post : List PyVal)
    (u : PyVal)
    (hentry : isUnrealEntry (PyVal.dict es) = true)
    (hfiles : pyGetD es "files" (PyVal.list []) = PyVal.list (PyVal.dict fs :: fRest))
    (huid : pyLookup fs "uid" = some u) :
    scanFormats (PyVal.dict es :: post) = some u := by
  unfold scanFormats
  simp [hentry, hfiles, firstFileUid, huid]

/-! ## Claims -/

/-- C3: every Library surfaced to callers satisfies
`total_count == len(assets)`: the Library built by `get_library` from any
sequence of pages (and any page-to-assets conversion), and the Libraries
returned by `filter` and `filter_by_status` from any Library and any
predicate or status, all store `total_count` equal to the length of their
asset list. -/
theorem C3_library_total_count_invariant :
    (∀ (toAssets : LibrarySearchResponse → List Asset)
       (server : List LibrarySearchResponse),
       (getLibrary toAssets server).total_count
         = (getLibrary toAssets server).assets.length)
  ∧ (∀ (lib : Library) (predicate : Asset → Bool),
       (lib.filter predicate).total_count = (lib.filter predicate).assets.length)
  ∧ (∀ (lib : Library) (status : String),
       (lib.filter_by_status status).total_count
         = (lib.filter_by_status status).assets.length) :=
  ⟨fun _ _ => rfl, fun _ _ => rfl, fun _ _ => rfl⟩

/-- C6 counterexample: the claim says any input other than a bare list or a
dict wrapping a list under `assetFormats` normalizes to an EMPTY formats
list, but `from_api_response` turns a dict WITHOUT that key into a
one-element list holding the dict itself: on input `\x7b\x7d` the formats list is
`[\x7b\x7d]`, not `[]`. -/
theorem C6_counterexample :
    (AssetFormatsResponse.from_api_response (PyVal.dict [])).formats
        = PyVal.list [PyVal.dict []]
  ∧ PyVal.list [PyVal.dict []] ≠ PyVal.list [] :=
  ⟨rfl, by simp⟩

/-- C6 amended: `from_api_response` never raises (it is total) and
normalizes: a bare list to itself, a dict to the value under `assetFormats`
when that key is present and otherwise to the one-element list holding the
dict, and any non-list non-dict input to the empty list. -/
theorem C6_from_api_response_total (data : PyVal) :
    (AssetFormatsResponse.from_api_response data).formats
      = (match data with
         | .list xs => PyVal.list xs
         | .dict kvs =>
             match pyLookup kvs "assetFormats" with
             | some v => v
             | Option.none => PyVal.list [PyVal.dict kvs]
         | _ => PyVal.list []) := by
  cases data with
  | dict kvs =>
      cases h : pyLookup kvs "assetFormats" <;>
        simp [AssetFormatsResponse.from_api_response, h]
  | none => rfl
  | bool b => rfl
  | int n => rfl
  | str s => rfl
  | list xs => rfl

/-- C7: `find_unreal_file_uid` scans format entries in array order; for any
prefix of non-matching entries followed by an entry whose `assetFormatType`
code is `"unreal-engine"` and whose first file is a dict bearing `uid=u`,
the result is `u`; when no entry matches the result is none; and on the
spec example `[\x7btype:"other"\x7d, \x7btype:"unreal-engine",
files:[\x7buid:"X"\x7d]\x7d]` the result is `"X"`. -/
theorem C7_find_unreal_file_uid
    (pre post : List PyVal) (es fs : List (String × PyVal)) (fRest : List PyVal)
    (u : PyVal)
    (hpre : ∀ p ∈ pre, isUnrealEntry p = false)
    (hentry : isUnrealEntry (PyVal.dict es) = true)
    (hfiles : pyGetD es "files" (PyVal.list []) = PyVal.list (PyVal.dict fs :: fRest))
    (huid : pyLookup fs "uid" = some u) :
    AssetFormatsResponse.find_unreal_file_uid
        ⟨PyVal.list (pre ++ PyVal.dict es :: post)⟩ = .ok (some u)
  ∧ (∀ fos : List PyVal, (∀ p ∈ fos, isUnrealEntry p = false) →
       AssetFormatsResponse.find_unreal_file_uid ⟨PyVal.list fos⟩ = .ok Option.none)
  ∧ AssetFormatsResponse.find_unreal_file_uid
      ⟨PyVal.list
        [ PyVal.dict [("assetFormatType", PyVal.dict [("code", PyVal.str "other")])],
          PyVal.dict [("assetFormatType", PyVal.dict [("code", PyVal.str "unreal-engine")]),
                      ("files", PyVal.list [PyVal.dict [("uid", PyVal.str "X")]])] ]⟩
      = .ok (some (PyVal.str "X")) := by
  refine ⟨?_, ?_, rfl⟩
  · show Except.ok (scanFormats (pre ++ PyVal.dict es :: post)) = _
    rw [show scanFormats (pre ++ PyVal.dict es :: post) = some u from ?_]
    induction pre with
    | nil => exact scanFormats_hit es fs fRest post u hentry hfiles huid
    | cons fo rest ih =>
        rw [List.cons_append,
          scanFormats_cons_false fo _ (hpre fo (by simp))]
        exact ih fun p hp => hpre p (by simp [hp])
  · intro fos hfos
    show Except.ok (scanFormats fos) = _
    rw [scanFormats_all_false fos hfos]

/-- C7 witness: the theorem applied to the spec example, whose first entry
does not match and whose second matches with first file uid "X". -/
theorem C7_find_unreal_file_uid_witness :
    AssetFormatsResponse.find_unreal_file_uid
        ⟨PyVal.list
          ([PyVal.dict [("assetFormatType", PyVal.dict [("code", PyVal.str "other")])]] ++
            PyVal.dict [("assetFormatType", PyVal.dict [("code", PyVal.str "unreal-engine")]),
                        ("files", PyVal.list [PyVal.dict [("uid", PyVal.str "X")]])] :: [])⟩
      = .ok (some (PyVal.str "X")) :=
  (C7_find_unreal_file_uid
    [PyVal.dict [("assetFormatType", PyVal.dict [("code", PyVal.str "other")])]]
    []
    [("assetFormatType", PyVal.dict [("code", PyVal.str "unreal-engine")]),
     ("files", PyVal.list [PyVal.dict [("uid", PyVal.str "X")]])]
    [("uid", PyVal.str "X")] [] (PyVal.str "X")
    (by intro p hp; rw [List.mem_singleton] at hp; subst hp; rfl)
    rfl rfl rfl).1

/-- Expected event interleaving of a walk over a well-formed chain
`ps ++ [last]`: a fetch and a yield per page, with exactly one pause between
the yield of one page and the fetch of the next. -/
def chainTrace : List LibrarySearchResponse → LibrarySearchResponse → Option PyVal → List PageEvent
  | [], last, c => [.fetch c, .pageOut last]
  | p :: rest, last, c =>
      .fetch c :: .pageOut p :: .sleep :: chainTrace rest last (some p.cursorNext)

theorem pagesTrace_eq_chainTrace (ps : List LibrarySearchResponse)
    (last : LibrarySearchResponse)
    (h1 : ∀ p ∈ ps, hasNext p = true) (h2 : hasNext last = false) :
    ∀ c, pagesTrace (ps ++ [last]) c = chainTrace ps last c := by
  induction ps with
  | nil =>
      intro c
      show PageEvent.fetch c :: PageEvent.pageOut last ::
          (if hasNext last then _ else []) = _
      rw [h2]
      rfl
  | cons p rest ih =>
      intro c
      show PageEvent.fetch c :: PageEvent.pageOut p ::
          (if hasNext p then PageEvent.sleep :: pagesTrace (rest ++ [last]) (some p.cursorNext) else []) = _
      rw [h1 p (by simp), ih (fun q hq => h1 q (by simp [hq])) (some p.cursorNext)]
      rfl

theorem chainTrace_yielded (ps : List LibrarySearchResponse)
    (last : LibrarySearchResponse) :
    ∀ c, yieldedPages (chainTrace ps last c) = ps ++ [last] := by
  induction ps with
  | nil => intro c; rfl
  | cons p rest ih =>
      intro c
      show yieldedPages (PageEvent.fetch c :: PageEvent.pageOut p :: PageEvent.sleep ::
        chainTrace rest last (some p.cursorNext)) = _
      simp only [yieldedPages, List.filterMap_cons] at ih ⊢
      rw [ih]
      rfl

theorem chainTrace_fetched (ps : List LibrarySearchResponse)
    (last : LibrarySearchResponse) :
    ∀ c, fetchedCursors (chainTrace ps last c)
      = c :: ps.map (fun p => some p.cursorNext) := by
  induction ps with
  | nil => intro c; rfl
  | cons p rest ih =>
      intro c
      show fetchedCursors (PageEvent.fetch c :: PageEvent.pageOut p :: PageEvent.sleep ::
        chainTrace rest last (some p.cursorNext)) = _
      simp only [fetchedCursors, List.filterMap_cons] at ih ⊢
      rw [ih]
      rfl

theorem chainTrace_sleeps (ps : List LibrarySearchResponse)
    (last : LibrarySearchResponse) :
    ∀ c, countSleeps (chainTrace ps last c) = ps.length := by
  induction ps with
  | nil => intro c; rfl
  | cons p rest ih =>
      intro c
      show countSleeps (PageEvent.fetch c :: PageEvent.pageOut p :: PageEvent.sleep ::
        chainTrace rest last (some p.cursorNext)) = _
      simp only [countSleeps, List.filter_cons] at ih ⊢
      simp only [List.length] at ih ⊢
      rw [ih]

theorem chainTrace_sleepsBeforeFetch (ps : List LibrarySearchResponse)
    (last : LibrarySearchResponse) :
    ∀ c, sleepsBeforeFetch (chainTrace ps last c) = true := by
  induction ps with
  | nil => intro c; rfl
  | cons p rest ih =>
      intro c
      show sleepsBeforeFetch (PageEvent.fetch c :: PageEvent.pageOut p :: PageEvent.sleep ::
        chainTrace rest last (some p.cursorNext)) = true
      cases rest with
      | nil => exact ih (some p.cursorNext)
      | cons q qs => exact ih (some p.cursorNext)

theorem chainTrace_getLast (ps : List LibrarySearchResponse)
    (last : LibrarySearchResponse) :
    ∀ c, (chainTrace ps last c).getLast? = some (.pageOut last) := by
  induction ps with
  | nil => intro c; rfl
  | cons p rest ih =>
      intro c
      show (PageEvent.fetch c :: PageEvent.pageOut p :: PageEvent.sleep ::
        chainTrace rest last (some p.cursorNext)).getLast? = _
      rw [List.getLast?_cons_cons, List.getLast?_cons_cons]
      cases h : chainTrace rest last (some p.cursorNext) with
      | nil => cases rest <;> simp [chainTrace] at h
      | cons e es => rw [List.getLast?_cons_cons, ← h, ih]

theorem fetchedCursors_pagesTrace_head (server : List LibrarySearchResponse)
    (c : Option PyVal) :
    ∃ t, fetchedCursors (pagesTrace server c) = c :: t := by
  cases server with
  | nil => exact ⟨[], rfl⟩
  | cons p rest =>
      show ∃ t, fetchedCursors (PageEvent.fetch c :: PageEvent.pageOut p ::
        (if hasNext p then PageEvent.sleep :: pagesTrace rest (some p.cursorNext) else [])) = c :: t
      cases h : hasNext p <;> simp [h, fetchedCursors]

/-- C4: over a finite chain in which every page but the last carries a
non-null, non-empty `cursors.next` and the last carries none,
`get_library_pages` yields exactly the chain pages in order and stops; the
first request carries no cursor and every later request carries the previous
page's `cursors.next`; and (for arbitrary served pages) a second page request
is issued exactly when the first page passes the continuation test `hasNext`
(its `cursors` record is present with a truthy `next`), which for the
string-valued cursors of `CursorInfo` is precisely non-null and non-empty. -/
theorem C4_pagination_yields_chain
    (ps : List LibrarySearchResponse) (last : LibrarySearchResponse)
    (p : LibrarySearchResponse) (rest : List LibrarySearchResponse) (c : Option PyVal)
    (h1 : ∀ q ∈ ps, hasNext q = true) (h2 : hasNext last = false) :
    yieldedPages (pagesTrace (ps ++ [last]) Option.none) = ps ++ [last]
  ∧ fetchedCursors (pagesTrace (ps ++ [last]) Option.none)
      = Option.none :: ps.map (fun q => some q.cursorNext)
  ∧ (2 ≤ (fetchedCursors (pagesTrace (p :: rest) c)).length ↔ hasNext p = true)
  ∧ (∀ s : String, hasNext { cursors := some { next := PyVal.str s } } = !s.isEmpty) := by
  refine ⟨?_, ?_, ?_, fun s => rfl⟩
  · rw [pagesTrace_eq_chainTrace ps last h1 h2, chainTrace_yielded]
  · rw [pagesTrace_eq_chainTrace ps last h1 h2, chainTrace_fetched]
  · show 2 ≤ (fetchedCursors (PageEvent.fetch c :: PageEvent.pageOut p ::
        (if hasNext p then PageEvent.sleep :: pagesTrace rest (some p.cursorNext) else []))).length ↔ _
    cases h : hasNext p with
    | false => simp [fetchedCursors, h]
    | true =>
        simp only [h, if_true]
        obtain ⟨t, ht⟩ := fetchedCursors_pagesTrace_head rest (some p.cursorNext)
        simp only [fetchedCursors] at ht ⊢
        simp [List.filterMap_cons, ht, h]

/-- C4 witness: the theorem applied to the two-page chain `pageOne` (cursor
"cur2") then `pageTwo` (no cursor): both pages are yielded in order, the two
requests carry no cursor and then "cur2", and over the served chain a second
fetch happens since `pageOne` has a next cursor. -/
theorem C4_pagination_yields_chain_witness :
    yieldedPages (pagesTrace ([pageOne] ++ [pageTwo]) Option.none) = [pageOne] ++ [pageTwo]
  ∧ fetchedCursors (pagesTrace ([pageOne] ++ [pageTwo]) Option.none)
      = Option.none :: [pageOne].map (fun q => some q.cursorNext)
  ∧ (2 ≤ (fetchedCursors (pagesTrace (pageOne :: [pageTwo]) Option.none)).length
      ↔ hasNext pageOne = true)
  ∧ (∀ s : String, hasNext { cursors := some { next := PyVal.str s } } = !s.isEmpty) :=
  C4_pagination_yields_chain [pageOne] pageTwo pageOne [pageTwo] Option.none
    (by intro q hq; rw [List.mem_singleton] at hq; subst hq; rfl) rfl

/-- C5: over the same well-formed chain of `n = len(ps) + 1` pages, the
rate-limit pause runs exactly `n - 1` times; the walk begins with a page
request (no pause before the first fetch), ends with the final page yield (no
pause after the last fetch), and every pause is immediately followed by the
next page request, so pauses occur only between successive fetches. -/
theorem C5_rate_limit_pause_count
    (ps : List LibrarySearchResponse) (last : LibrarySearchResponse)
    (h1 : ∀ q ∈ ps, hasNext q = true) (h2 : hasNext last = false) :
    countSleeps (pagesTrace (ps ++ [last]) Option.none) = (ps ++ [last]).length - 1
  ∧ (pagesTrace (ps ++ [last]) Option.none).head? = some (.fetch Option.none)
  ∧ (pagesTrace (ps ++ [last]) Option.none).getLast? = some (.pageOut last)
  ∧ sleepsBeforeFetch (pagesTrace (ps ++ [last]) Option.none) = true := by
  rw [pagesTrace_eq_chainTrace ps last h1 h2]
  refine ⟨?_, ?_, chainTrace_getLast ps last Option.none,
    chainTrace_sleepsBeforeFetch ps last Option.none⟩
  · rw [chainTrace_sleeps]
    simp
  · cases ps <;> rfl

/-- C5 witness: the theorem applied to the two-page chain: exactly one pause,
a trace starting with the first fetch and ending with the last yield, and
every pause immediately followed by a fetch. -/
theorem C5_rate_limit_pause_count_witness :
    countSleeps (pagesTrace ([pageOne] ++ [pageTwo]) Option.none)
        = ([pageOne] ++ [pageTwo]).length - 1
  ∧ (pagesTrace ([pageOne] ++ [pageTwo]) Option.none).head? = some (.fetch Option.none)
  ∧ (pagesTrace ([pageOne] ++ [pageTwo]) Option.none).getLast? = some (.pageOut pageTwo)
  ∧ sleepsBeforeFetch (pagesTrace ([pageOne] ++ [pageTwo]) Option.none) = true :=
  C5_rate_limit_pause_count [pageOne] pageTwo
    (by intro q hq; rw [List.mem_singleton] at hq; subst hq; rfl) rfl

theorem syncDownloadManifests_noCb (vu : PyVal → Bool) (sf : String → String)
    (od : String) (items : List (Asset × AssetEnv)) :
    syncDownloadManifests vu sf od items Option.none
      = .ok (items.map fun it => downloadManifest vu sf od it.2 it.1 Option.none) := by
  induction items with
  | nil => rfl
  | cons it rest ih =>
      obtain ⟨a, env⟩ := it
      have step : syncDownloadManifests vu sf od ((a, env) :: rest) Option.none
          = Except.bind (syncDownloadManifests vu sf od rest Option.none)
              (fun rs => Except.ok (downloadManifest vu sf od env a Option.none :: rs)) := rfl
      rw [step, ih]
      rfl

theorem asyncForM_noCb (items : List (Asset × AssetEnv)) :
    (items.forM fun it => callBatchCb Option.none it.1 "starting")
      = (Except.ok () : Except String Unit) := by
  induction items with
  | nil => rfl
  | cons it rest ih => exact ih

theorem asyncMapM_noCb (vu : PyVal → Bool) (sf : String → String)
    (od : String) (items : List (Asset × AssetEnv)) :
    (items.mapM fun it => asyncTaskRun vu sf od it.1 it.2 Option.none)
      = .ok (items.map fun it => downloadManifest vu sf od it.2 it.1 Option.none) := by
  induction items with
  | nil => rfl
  | cons it rest ih =>
      rw [List.mapM_cons, ih]
      rfl

theorem asyncDownloadManifests_noCb (vu : PyVal → Bool) (sf : String → String)
    (od : String) (items : List (Asset × AssetEnv)) :
    asyncDownloadManifests vu sf od items Option.none
      = .ok (items.map fun it => downloadManifest vu sf od it.2 it.1 Option.none) := by
  have step : asyncDownloadManifests vu sf od items Option.none
      = Except.bind (items.forM fun it => callBatchCb Option.none it.1 "starting")
          (fun _ => items.mapM fun it => asyncTaskRun vu sf od it.1 it.2 Option.none) := rfl
  rw [step, asyncForM_noCb, asyncMapM_noCb]
  rfl

/-- C1 is a code bug: the claim (and the docstring of `download_manifest`,
which announces `Raises: FabAPIError`) says authentication failures,
timeouts, connection failures and non-404 HTTP errors propagate out of
`download_manifest` as exceptions, but the blanket `except Exception` at the
end of the function converts every one of them into a failure result. The
inner pipeline body does raise them (`downloadManifestTry` errors), and the
wrapper swallows them: at the failing inputs below the function RETURNS a
failure result whose `error` is the exception text instead of raising. -/
theorem C1_transport_errors_swallowed :
    downloadManifestTry (fun _ => true) id "out" env401 assetAlpha Option.none
        = .error "Authentication failed (HTTP 401)"
  ∧ downloadManifest (fun _ => true) id "out" env401 assetAlpha Option.none
        = { success := false, error := some "Authentication failed (HTTP 401)" }
  ∧ downloadManifest (fun _ => true) id "out" envTimeout assetAlpha Option.none
        = { success := false, error := some "Request timeout: t" }
  ∧ downloadManifest (fun _ => true) id "out" env500 assetAlpha Option.none
        = { success := false, error := some "HTTP error 500" }
  ∧ downloadManifest (fun _ => true) id "out" env404 assetAlpha Option.none
        = { success := false, error := some "No Unreal Engine format found" } :=
  ⟨rfl, rfl, rfl, rfl, rfl⟩

/-- C2: both batch operations return one `ManifestDownloadResult` per input
asset, in input order (each asset's result is the value of
`download_manifest` in its own environment), and never raise merely because
an asset lacks a download path; in the 2-asset scenario where asset A's
format discovery 404s and asset B succeeds through all three stages, both
clients return `[failure "No Unreal Engine format found",
success(out/Beta_uidB.manifest, 13)]` in that order with no exception. -/
theorem C2_batch_per_asset_results_in_order (vu : PyVal → Bool)
    (sf : String → String) (od : String) (items : List (Asset × AssetEnv)) :
    syncDownloadManifests vu sf od items Option.none
        = .ok (items.map fun it => downloadManifest vu sf od it.2 it.1 Option.none)
  ∧ asyncDownloadManifests vu sf od items Option.none
        = .ok (items.map fun it => downloadManifest vu sf od it.2 it.1 Option.none)
  ∧ (items.map fun it => downloadManifest vu sf od it.2 it.1 Option.none).length
        = items.length
  ∧ syncDownloadManifests (fun _ => true) id "out"
        [(assetAlpha, env404), (assetBeta, envOk)] Option.none
      = .ok [ { success := false, error := some "No Unreal Engine format found" },
              { success := true, file_path := some "out/Beta_uidB.manifest",
                size := some 13 } ]
  ∧ asyncDownloadManifests (fun _ => true) id "out"
        [(assetAlpha, env404), (assetBeta, envOk)] Option.none
      = .ok [ { success := false, error := some "No Unreal Engine format found" },
              { success := true, file_path := some "out/Beta_uidB.manifest",
                size := some 13 } ] :=
  ⟨syncDownloadManifests_noCb vu sf od items,
   asyncDownloadManifests_noCb vu sf od items,
   items.length_map _,
   rfl, rfl⟩

/-- Test callback raising at the batch-level "starting" transition. -/
def cbBoomStarting : Asset → String → Except String Unit := fun _ msg =>
  if msg = "starting" then .error "boom" else .ok ()

/-- Test callback raising at the per-stage "Discovering file UID" transitions
of the two test assets and nowhere else. -/
def cbStageBoom : Asset → String → Except String Unit := fun _ msg =>
  if msg = "Discovering file UID for Alpha" ∨ msg = "Discovering file UID for Beta" then
    .error "stageboom"
  else .ok ()

/-- C9 counterexample: the batch-level callback invocations of both
`download_manifests` are unguarded, so a callback raising at the "starting"
transition aborts the whole batch — a 1-asset batch propagates the exception
and returns no results, refuting the claim that a raising callback never
affects orchestration. A callback raising only at the per-stage transitions
is instead caught by the blanket handler inside `download_manifest`, which
keeps the batch alive but records the exception as that asset's FAILURE
result (here even for asset Beta, whose pipeline would have succeeded). -/
theorem C9_counterexample :
    syncDownloadManifests (fun _ => true) id "out" [(assetAlpha, env404)]
        (some cbBoomStarting) = .error "boom"
  ∧ asyncDownloadManifests (fun _ => true) id "out" [(assetAlpha, env404)]
        (some cbBoomStarting) = .error "boom"
  ∧ syncDownloadManifests (fun _ => true) id "out"
        [(assetAlpha, env404), (assetBeta, envOk)] (some cbStageBoom)
      = .ok [ { success := false, error := some "stageboom" },
              { success := false, error := some "stageboom" } ] :=
  ⟨rfl, rfl, rfl⟩

theorem syncDownloadManifests_cbOk (vu : PyVal → Bool) (sf : String → String)
    (od : String) (items : List (Asset × AssetEnv))
    (cb : Asset → String → Except String Unit)
    (hstart : ∀ a, cb a "starting" = .ok ())
    (hdone : ∀ a r, cb a (progressMsg r) = .ok ()) :
    syncDownloadManifests vu sf od items (some cb)
      = .ok (items.map fun it => downloadManifest vu sf od it.2 it.1 (some (cb it.1))) := by
  induction items with
  | nil => rfl
  | cons it rest ih =>
      obtain ⟨a, env⟩ := it
      have step : syncDownloadManifests vu sf od ((a, env) :: rest) (some cb)
          = Except.bind (cb a "starting") (fun _ =>
              Except.bind
                (cb a (progressMsg (downloadManifest vu sf od env a (some (cb a)))))
                (fun _ =>
                  Except.bind (syncDownloadManifests vu sf od rest (some cb))
                    (fun rs => Except.ok
                      (downloadManifest vu sf od env a (some (cb a)) :: rs)))) := rfl
      rw [step, hstart a, hdone a _, ih]
      rfl

theorem asyncForM_cbOk (items : List (Asset × AssetEnv))
    (cb : Asset → String → Except String Unit)
    (hstart : ∀ a, cb a "starting" = .ok ()) :
    (items.forM fun it => callBatchCb (some cb) it.1 "starting")
      = (Except.ok () : Except String Unit) := by
  induction items with
  | nil => rfl
  | cons it rest ih =>
      show Except.bind (cb it.1 "starting")
        (fun _ => rest.forM fun jt => callBatchCb (some cb) jt.1 "starting") = _
      rw [hstart it.1]
      exact ih

theorem asyncMapM_cbOk (vu : PyVal → Bool) (sf : String → String)
    (od : String) (items : List (Asset × AssetEnv))
    (cb : Asset → String → Except String Unit)
    (hdone : ∀ a r, cb a (progressMsg r) = .ok ()) :
    (items.mapM fun it => asyncTaskRun vu sf od it.1 it.2 (some cb))
      = .ok (items.map fun it => downloadManifest vu sf od it.2 it.1 (some (cb it.1))) := by
  induction items with
  | nil => rfl
  | cons it rest ih =>
      have task : asyncTaskRun vu sf od it.1 it.2 (some cb)
          = .ok (downloadManifest vu sf od it.2 it.1 (some (cb it.1))) := by
        have step : asyncTaskRun vu sf od it.1 it.2 (some cb)
            = Except.bind
                (cb it.1 (progressMsg (downloadManifest vu sf od it.2 it.1 (some (cb it.1)))))
                (fun _ => Except.ok (downloadManifest vu sf od it.2 it.1 (some (cb it.1)))) := rfl
        rw [step, hdone it.1 _]
        rfl
      rw [List.mapM_cons, task, ih]
      rfl

/-- C9 amended: a raising progress callback CAN affect orchestration — the
batch-level transitions are unguarded (see the counterexample) — but
whenever the callback returns normally at the batch-level transitions
("starting" and the completion status), both batch operations process every
asset and return one result per asset in input order, even when the callback
raises at the per-stage transitions: those invocations happen inside
`download_manifest` and are contained by its blanket handler (surfacing only
as that asset's failure result). -/
theorem C9_callback_containment (vu : PyVal → Bool) (sf : String → String)
    (od : String) (items : List (Asset × AssetEnv))
    (cb : Asset → String → Except String Unit)
    (hstart : ∀ a, cb a "starting" = .ok ())
    (hdone : ∀ a r, cb a (progressMsg r) = .ok ()) :
    syncDownloadManifests vu sf od items (some cb)
        = .ok (items.map fun it => downloadManifest vu sf od it.2 it.1 (some (cb it.1)))
  ∧ asyncDownloadManifests vu sf od items (some cb)
        = .ok (items.map fun it => downloadManifest vu sf od it.2 it.1 (some (cb it.1)))
  ∧ (items.map fun it => downloadManifest vu sf od it.2 it.1 (some (cb it.1))).length
        = items.length := by
  refine ⟨syncDownloadManifests_cbOk vu sf od items cb hstart hdone, ?_,
    items.length_map _⟩
  have step : asyncDownloadManifests vu sf od items (some cb)
      = Except.bind (items.forM fun it => callBatchCb (some cb) it.1 "starting")
          (fun _ => items.mapM fun it => asyncTaskRun vu sf od it.1 it.2 (some cb)) := rfl
  rw [step, asyncForM_cbOk items cb hstart, asyncMapM_cbOk vu sf od items cb hdone]
  rfl

theorem progressMsg_first_char (r : ManifestDownloadResult) :
    (progressMsg r).data.head? = some 'c' ∨ (progressMsg r).data.head? = some 'f' := by
  unfold progressMsg
  cases h : r.success with
  | true => simp [h]
  | false =>
      refine Or.inr ?_
      simp only [h, Bool.false_eq_true, if_false]
      rw [String.data_append,
        show "failed: ".data = ['f', 'a', 'i', 'l', 'e', 'd', ':', ' '] from rfl]
      rfl

/-- C9 witness: the amended theorem applied to the 2-asset batch with the
per-stage-raising callback `cbStageBoom` (which returns normally at every
batch-level transition): both batches return two results in input order. -/
theorem C9_callback_containment_witness :
    (∀ a, cbStageBoom a "starting" = .ok ())
  ∧ (∀ a r, cbStageBoom a (progressMsg r) = .ok ())
  ∧ (syncDownloadManifests (fun _ => true) id "out"
        [(assetAlpha, env404), (assetBeta, envOk)] (some cbStageBoom)
      = .ok ([(assetAlpha, env404), (assetBeta, envOk)].map fun it =>
          downloadManifest (fun _ => true) id "out" it.2 it.1 (some (cbStageBoom it.1)))
  ∧ asyncDownloadManifests (fun _ => true) id "out"
        [(assetAlpha, env404), (assetBeta, envOk)] (some cbStageBoom)
      = .ok ([(assetAlpha, env404), (assetBeta, envOk)].map fun it =>
          downloadManifest (fun _ => true) id "out" it.2 it.1 (some (cbStageBoom it.1)))
  ∧ ([(assetAlpha, env404), (assetBeta, envOk)].map fun it =>
        downloadManifest (fun _ => true) id "out" it.2 it.1 (some (cbStageBoom it.1))).length
      = [(assetAlpha, env404), (assetBeta, envOk)].length) := by
  have hstart : ∀ a, cbStageBoom a "starting" = .ok () := fun a => rfl
  have hdone : ∀ a r, cbStageBoom a (progressMsg r) = .ok () := by
    intro a r
    show (if progressMsg r = "Discovering file UID for Alpha"
        ∨ progressMsg r = "Discovering file UID for Beta" then
          Except.error "stageboom" else Except.ok ()) = Except.ok ()
    rw [if_neg]
    rintro (hc | hc) <;>
    · have hh : (progressMsg r).data.head? = some 'D' := by rw [hc]; decide
      rcases progressMsg_first_char r with h1 | h1 <;> rw [h1] at hh <;>
        exact absurd hh (by decide)
  exact ⟨hstart, hdone,
    C9_callback_containment (fun _ => true) id "out"
      [(assetAlpha, env404), (assetBeta, envOk)] cbStageBoom hstart hdone⟩

theorem mapM_manifestFileOfEntry (fl : List PyVal)
    (h : ∀ f ∈ fl, ∃ e, f = PyVal.dict e) :
    ∃ fs, fl.mapM manifestFileOfEntry = Except.ok fs ∧ fs.length = fl.length := by
  induction fl with
  | nil => exact ⟨[], rfl, rfl⟩
  | cons f rest ih =>
      obtain ⟨e, he⟩ := h f (by simp)
      obtain ⟨fs, hfs, hlen⟩ := ih fun g hg => h g (by simp [hg])
      subst he
      refine ⟨{ filename := pyGetD e "Filename" (.str "")
                file_hash := pyGetD e "FileHash" (.str "")
                file_chunk_parts := pyGetD e "FileChunkParts" (.list []) } :: fs,
        ?_, by simp [hlen]⟩
      rw [List.mapM_cons, hfs]
      rfl

theorem ParsedManifest_from_dict_ok (kvs : List (String × PyVal)) (fl : List PyVal)
    (fs : List ManifestFile)
    (hfl : pyGetD kvs "FileManifestList" (PyVal.list []) = PyVal.list fl)
    (hfs : fl.mapM manifestFileOfEntry = Except.ok fs) :
    ParsedManifest.from_dict kvs = Except.ok
      { version := pyGetD kvs "ManifestFileVersion" (PyVal.str "")
        app_id := pyGetD kvs "AppID" (PyVal.str "")
        app_name := pyGetD kvs "AppNameString" (PyVal.str "")
        build_version := pyGetD kvs "BuildVersionString" (PyVal.str "")
        files := fs
        raw_data := kvs } := by
  unfold ParsedManifest.from_dict
  rw [hfl]
  show Except.bind (fl.mapM manifestFileOfEntry) _ = _
  rw [hfs]
  rfl

/-- C8: `ManifestDownloadResult.load` raises (`ValueError`) whenever the
result is unsuccessful, lacks a file path, or its file no longer exists on
disk; and for every successful result whose file holds a valid JSON manifest
object (a dict whose `FileManifestList` is an array of objects), `load`
returns a `ParsedManifest` whose `files` list has exactly the length of the
source `FileManifestList` array. -/
theorem C8_load_roundtrip (disk : String → Option PyVal)
    (r : ManifestDownloadResult) (p : String) (kvs : List (String × PyVal))
    (fl : List PyVal) :
    (r.success = false ∨ r.file_path = Option.none →
       ∃ e, r.load disk = .error e)
  ∧ (r.file_path = some p → disk p = Option.none → ∃ e, r.load disk = .error e)
  ∧ (r.success = true → r.file_path = some p → disk p = some (PyVal.dict kvs) →
       pyGetD kvs "FileManifestList" (PyVal.list []) = PyVal.list fl →
       (∀ f ∈ fl, ∃ e, f = PyVal.dict e) →
       ∃ m, r.load disk = .ok m ∧ m.files.length = fl.length) := by
  refine ⟨?_, ?_, ?_⟩
  · intro h
    unfold ManifestDownloadResult.load
    cases hp : r.file_path with
    | none => exact ⟨_, rfl⟩
    | some q =>
        rcases h with h | h
        · rw [h]
          exact ⟨_, rfl⟩
        · rw [hp] at h
          exact absurd h (by simp)
  · intro hp hd
    unfold ManifestDownloadResult.load
    rw [hp]
    cases hs : r.success with
    | false => exact ⟨_, rfl⟩
    | true =>
        refine ⟨"Manifest file not found: " ++ p, ?_⟩
        show ManifestDownloadResult.loadRead disk p = _
        unfold ManifestDownloadResult.loadRead
        rw [hd]
  · intro hs hp hd hfl hdicts
    obtain ⟨fs, hfs, hlen⟩ := mapM_manifestFileOfEntry fl hdicts
    refine ⟨{ version := pyGetD kvs "ManifestFileVersion" (PyVal.str "")
              app_id := pyGetD kvs "AppID" (PyVal.str "")
              app_name := pyGetD kvs "AppNameString" (PyVal.str "")
              build_version := pyGetD kvs "BuildVersionString" (PyVal.str "")
              files := fs
              raw_data := kvs }, ?_, hlen⟩
    unfold ManifestDownloadResult.load
    rw [hp, hs]
    show ManifestDownloadResult.loadRead disk p = _
    unfold ManifestDownloadResult.loadRead
    rw [hd]
    exact ParsedManifest_from_dict_ok kvs fl fs hfl hfs

/-- C8 witness: the theorem applied to (i) a failed result, (ii) a successful
result whose file is gone, and (iii) a successful result whose file holds a
one-file JSON manifest, which loads into a `ParsedManifest` with exactly one
file. -/
theorem C8_load_roundtrip_witness :
    (∃ e, ManifestDownloadResult.load (fun _ => Option.none)
        { success := false, error := some "boom" } = .error e)
  ∧ (∃ e, ManifestDownloadResult.load (fun _ => Option.none)
        { success := true, file_path := some "m.manifest", size := some 3 } = .error e)
  ∧ (∃ m, ManifestDownloadResult.load
        (fun q => if q = "m.manifest" then
            some (PyVal.dict [("FileManifestList",
              PyVal.list [PyVal.dict [("Filename", PyVal.str "a")]])])
          else Option.none)
        { success := true, file_path := some "m.manifest", size := some 3 }
        = .ok m
      ∧ m.files.length = [PyVal.dict [("Filename", PyVal.str "a")]].length) :=
  ⟨(C8_load_roundtrip (fun _ => Option.none)
      { success := false, error := some "boom" } "m.manifest" [] []).1 (Or.inl rfl),
   (C8_load_roundtrip (fun _ => Option.none)
      { success := true, file_path := some "m.manifest", size := some 3 }
      "m.manifest" [] []).2.1 rfl rfl,
   (C8_load_roundtrip
      (fun q => if q = "m.manifest" then
          some (PyVal.dict [("FileManifestList",
            PyVal.list [PyVal.dict [("Filename", PyVal.str "a")]])])
        else Option.none)
      { success := true, file_path := some "m.manifest", size := some 3 }
      "m.manifest"
      [("FileManifestList", PyVal.list [PyVal.dict [("Filename", PyVal.str "a")]])]
      [PyVal.dict [("Filename", PyVal.str "a")]]).2.2 rfl rfl rfl rfl
      (by intro f hf
          rw [List.mem_singleton] at hf
          exact ⟨_, hf⟩)⟩

/-- C10 counterexample: the claim says `from_dict` succeeds for EVERY dict
input, but a dict whose `FileManifestList` value is a non-iterable (here the
int 5) makes the `for` loop raise `TypeError`, so `from_dict` raises. -/
theorem C10_counterexample :
    ParsedManifest.from_dict [("FileManifestList", PyVal.int 5)]
      = .error "TypeError: object is not iterable" := rfl

/-- C10 amended: for every dict input whose `FileManifestList` value, when
present, is a list of dicts (absence defaults to the empty list),
`from_dict` succeeds; the four header fields default to `""` when absent (in
general they take `data.get(key, "")`), a missing `FileManifestList` yields
an empty files list, each file entry reads `Filename`/`FileHash` with
default `""` and `FileChunkParts` with default `[]`, the whole input is
retained as `raw_data`, and in particular the empty dict — lacking every
minimum manifest field — still parses. -/
theorem C10_from_dict_defaults (kvs : List (String × PyVal)) (fl : List PyVal)
    (es : List (String × PyVal))
    (hfl : pyGetD kvs "FileManifestList" (PyVal.list []) = PyVal.list fl)
    (hdicts : ∀ f ∈ fl, ∃ e, f = PyVal.dict e) :
    (∃ m, ParsedManifest.from_dict kvs = .ok m
       ∧ m.version = pyGetD kvs "ManifestFileVersion" (PyVal.str "")
       ∧ m.app_id = pyGetD kvs "AppID" (PyVal.str "")
       ∧ m.app_name = pyGetD kvs "AppNameString" (PyVal.str "")
       ∧ m.build_version = pyGetD kvs "BuildVersionString" (PyVal.str "")
       ∧ m.files.length = fl.length
       ∧ m.raw_data = kvs)
  ∧ manifestFileOfEntry (PyVal.dict es)
      = .ok { filename := pyGetD es "Filename" (PyVal.str "")
              file_hash := pyGetD es "FileHash" (PyVal.str "")
              file_chunk_parts := pyGetD es "FileChunkParts" (PyVal.list []) }
  ∧ ParsedManifest.from_dict []
      = .ok { version := PyVal.str "", app_id := PyVal.str "",
              app_name := PyVal.str "", build_version := PyVal.str "",
              files := [], raw_data := [] } := by
  obtain ⟨fs, hfs, hlen⟩ := mapM_manifestFileOfEntry fl hdicts
  exact ⟨⟨_, ParsedManifest_from_dict_ok kvs fl fs hfl hfs,
    rfl, rfl, rfl, rfl, hlen, rfl⟩, rfl, rfl⟩

/-- C10 witness: the amended theorem applied to a dict with one file entry
whose `Filename` is absent: parsing succeeds with one file and the defaults
described. -/
theorem C10_from_dict_defaults_witness :
    (∃ m, ParsedManifest.from_dict
        [("FileManifestList", PyVal.list [PyVal.dict [("FileHash", PyVal.str "h")]]),
         ("AppID", PyVal.str "app")] = .ok m
       ∧ m.version = pyGetD
           [("FileManifestList", PyVal.list [PyVal.dict [("FileHash", PyVal.str "h")]]),
            ("AppID", PyVal.str "app")] "ManifestFileVersion" (PyVal.str "")
       ∧ m.app_id = pyGetD
           [("FileManifestList", PyVal.list [PyVal.dict [("FileHash", PyVal.str "h")]]),
            ("AppID", PyVal.str "app")] "AppID" (PyVal.str "")
       ∧ m.app_name = pyGetD
           [("FileManifestList", PyVal.list [PyVal.dict [("FileHash", PyVal.str "h")]]),
            ("AppID", PyVal.str "app")] "AppNameString" (PyVal.str "")
       ∧ m.build_version = pyGetD
           [("FileManifestList", PyVal.list [PyVal.dict [("FileHash", PyVal.str "h")]]),
            ("AppID", PyVal.str "app")] "BuildVersionString" (PyVal.str "")
       ∧ m.files.length = [PyVal.dict [("FileHash", PyVal.str "h")]].length
       ∧ m.raw_data =
           [("FileManifestList", PyVal.list [PyVal.dict [("FileHash", PyVal.str "h")]]),
            ("AppID", PyVal.str "app")])
  ∧ manifestFileOfEntry (PyVal.dict [("Filename", PyVal.str "x")])
      = .ok { filename := pyGetD [("Filename", PyVal.str "x")] "Filename" (PyVal.str "")
              file_hash := pyGetD [("Filename", PyVal.str "x")] "FileHash" (PyVal.str "")
              file_chunk_parts :=
                pyGetD [("Filename", PyVal.str "x")] "FileChunkParts" (PyVal.list []) }
  ∧ ParsedManifest.from_dict []
      = .ok { version := PyVal.str "", app_id := PyVal.str "",
              app_name := PyVal.str "", build_version := PyVal.str "",
              files := [], raw_data := [] } :=
  C10_from_dict_defaults
    [("FileManifestList", PyVal.list [PyVal.dict [("FileHash", PyVal.str "h")]]),
     ("AppID", PyVal.str "app")]
    [PyVal.dict [("FileHash", PyVal.str "h")]]
    [("Filename", PyVal.str "x")]
    rfl
    (by intro f hf
        rw [List.mem_singleton] at hf
        exact ⟨_, hf⟩)

end Fab
